import Mathlib

set_option maxHeartbeats 1000000

/-! # Verification of the race-results capture system

A shallow embedding of `collect_results.py` and `race_results_display.py`.
The SQLite registration table is modelled as a `List Runner` (rows in table
order, `fetchone` returning the first row), SQL `ORDER BY` and Python
`list.sort` as a stable insertion sort, and SQL `NULL` as `Option`. -/

/-! ## Stable insertion sort (models ORDER BY and list.sort) -/

def insertLe (le : α → α → Bool) (x : α) : List α → List α
  | [] => [x]
  | y :: ys => if le x y then x :: y :: ys else y :: insertLe le x ys

def isort (le : α → α → Bool) : List α → List α
  | [] => []
  | x :: xs => insertLe le x (isort le xs)

theorem insertLe_perm (le : α → α → Bool) (x : α) (l : List α) :
    List.Perm (insertLe le x l) (x :: l) := by
  induction l with
  | nil => simp [insertLe]
  | cons y ys ih =>
    simp only [insertLe]
    split
    · exact List.Perm.refl _
    · exact (ih.cons y).trans (List.Perm.swap x y ys)

theorem isort_perm (le : α → α → Bool) (l : List α) :
    List.Perm (isort le l) l := by
  induction l with
  | nil => simp [isort]
  | cons x xs ih => exact (insertLe_perm le x (isort le xs)).trans (ih.cons x)

theorem length_isort (le : α → α → Bool) (l : List α) :
    (isort le l).length = l.length :=
  (isort_perm le l).length_eq

theorem mem_isort (le : α → α → Bool) (l : List α) (a : α) :
    a ∈ isort le l ↔ a ∈ l :=
  (isort_perm le l).mem_iff

theorem insertLe_eq_cons (le : α → α → Bool) (x : α) (l : List α)
    (h : ∀ z ∈ l, le x z = true) : insertLe le x l = x :: l := by
  cases l with
  | nil => rfl
  | cons y ys => simp [insertLe, h y (by simp)]

theorem insertLe_pairwise (le : α → α → Bool)
    (htrans : ∀ a b c, le a b = true → le b c = true → le a c = true)
    (htot : ∀ a b, le a b = false → le b a = true)
    (x : α) (l : List α) (hl : l.Pairwise (fun a b => le a b = true)) :
    (insertLe le x l).Pairwise (fun a b => le a b = true) := by
  induction l with
  | nil => simp [insertLe]
  | cons y ys ih =>
    rcases List.pairwise_cons.mp hl with ⟨hy, hys⟩
    simp only [insertLe]
    by_cases hxy : le x y = true
    · simp only [hxy, if_true]
      refine List.pairwise_cons.mpr ⟨?_, hl⟩
      intro z hz
      rcases hz with _ | hz
      · exact hxy
      · exact htrans x y z hxy (hy _ (by assumption))
    · have hyx : le y x = true := htot x y (by simpa using hxy)
      simp only [if_neg hxy]
      refine List.pairwise_cons.mpr ⟨?_, ih hys⟩
      intro z hz
      have : z ∈ x :: ys := (insertLe_perm le x ys).mem_iff.mp hz
      rcases this with _ | hz2
      · exact hyx
      · exact hy _ (by assumption)

theorem isort_pairwise (le : α → α → Bool)
    (htrans : ∀ a b c, le a b = true → le b c = true → le a c = true)
    (htot : ∀ a b, le a b = false → le b a = true)
    (l : List α) :
    (isort le l).Pairwise (fun a b => le a b = true) := by
  induction l with
  | nil => simp [isort]
  | cons x xs ih => exact insertLe_pairwise le htrans htot x (isort le xs) ih

theorem isort_eq_of_pairwise (le : α → α → Bool) (l : List α)
    (hl : l.Pairwise (fun a b => le a b = true)) : isort le l = l := by
  induction l with
  | nil => rfl
  | cons x xs ih =>
    rcases List.pairwise_cons.mp hl with ⟨hx, hxs⟩
    simp only [isort, ih hxs]
    exact insertLe_eq_cons le x xs hx

theorem filter_insertLe (le : α → α → Bool) (p : α → Bool)
    (htrans : ∀ a b c, le a b = true → le b c = true → le a c = true)
    (x : α) (l : List α) (hl : l.Pairwise (fun a b => le a b = true)) :
    (insertLe le x l).filter p =
      if p x then insertLe le x (l.filter p) else l.filter p := by
  induction l with
  | nil => cases hpx : p x <;> simp [insertLe, List.filter, hpx]
  | cons y ys ih =>
    rcases List.pairwise_cons.mp hl with ⟨hy, hys⟩
    simp only [insertLe]
    by_cases hxy : le x y = true
    · simp only [hxy, if_true]
      have hxall : ∀ z ∈ (y :: ys).filter p, le x z = true := by
        intro z hz
        rcases List.mem_filter.mp hz with ⟨hz1, _⟩
        rcases hz1 with _ | hz2
        · exact hxy
        · exact htrans x y z hxy (hy _ (by assumption))
      cases hpx : p x with
      | true =>
        rw [insertLe_eq_cons le x _ hxall]
        simp [List.filter, hpx]
      | false =>
        simp [List.filter, hpx]
    · simp only [if_neg hxy]
      cases hpy : p y with
      | true =>
        cases hpx : p x with
        | true =>
          simp only [List.filter, hpy, ih hys, hpx, if_true]
          have : insertLe le x (y :: ys.filter p) = y :: insertLe le x (ys.filter p) := by
            simp [insertLe, if_neg hxy]
          rw [this]
        | false =>
          simp [List.filter, hpy, ih hys, hpx]
      | false =>
        cases hpx : p x with
        | true => simp [List.filter, hpy, ih hys, hpx]
        | false => simp [List.filter, hpy, ih hys, hpx]

theorem filter_isort (le : α → α → Bool) (p : α → Bool)
    (htrans : ∀ a b c, le a b = true → le b c = true → le a c = true)
    (htot : ∀ a b, le a b = false → le b a = true)
    (l : List α) :
    (isort le l).filter p = isort le (l.filter p) := by
  induction l with
  | nil => rfl
  | cons x xs ih =>
    simp only [isort]
    rw [filter_insertLe le p htrans x (isort le xs) (isort_pairwise le htrans htot xs), ih]
    cases hpx : p x with
    | true => simp [List.filter, hpx, isort]
    | false => simp [List.filter, hpx, isort]

theorem map_insertLe (le : α → α → Bool) (le' : β → β → Bool) (f : α → β)
    (h : ∀ a b, le a b = le' (f a) (f b)) (x : α) (l : List α) :
    (insertLe le x l).map f = insertLe le' (f x) (l.map f) := by
  induction l with
  | nil => rfl
  | cons y ys ih =>
    simp only [insertLe, List.map]
    rw [← h x y]
    cases hxy : le x y with
    | true => simp
    | false => simp [ih]

theorem map_isort (le : α → α → Bool) (le' : β → β → Bool) (f : α → β)
    (h : ∀ a b, le a b = le' (f a) (f b)) (l : List α) :
    (isort le l).map f = isort le' (l.map f) := by
  induction l with
  | nil => rfl
  | cons x xs ih =>
    simp only [isort, List.map]
    rw [map_insertLe le le' f h, ih]

/-! ## Data model (the `registrations` table, the race clock, in-memory counters) -/

structure Runner where
  id : Nat
  registration_number : String
  staff_student_number : String
  first_name : String
  last_name : String
  gender : Option String
  organisational_unit : String
  list_results : Option String
  elapsed : Option Int
  position : Option Nat
  gender_pos : Option Nat
  deriving DecidableEq

structure GenderPositions where
  male : Nat
  female : Nat
  other : Nat
  deriving DecidableEq

/-- The Python dict `{'male': _, 'female': _, 'other': _}`; a key outside the
three returns `none` (a `KeyError` in the source). -/
def GenderPositions.lookup (gp : GenderPositions) (g : String) : Option Nat :=
  if g = "male" then some gp.male
  else if g = "female" then some gp.female
  else if g = "other" then some gp.other
  else none

def GenderPositions.incr (gp : GenderPositions) (g : String) : GenderPositions :=
  if g = "male" then { gp with male := gp.male + 1 }
  else if g = "female" then { gp with female := gp.female + 1 }
  else if g = "other" then { gp with other := gp.other + 1 }
  else gp

structure RaceState where
  runners : List Runner
  start_time : Option Int
  current_position : Nat
  gender_positions : GenderPositions
  deriving DecidableEq

/-- Python truthiness of a nullable integer (`None` and `0` are falsy). -/
def truthyInt : Option Int → Bool
  | none => false
  | some t => t != 0

/-- `str.lower()` (ASCII), written structurally so the kernel can evaluate it. -/
def pyLower (s : String) : String := String.mk (s.data.map Char.toLower)

/-- `str.strip()`, written structurally so the kernel can evaluate it. -/
def pyStrip (s : String) : String :=
  String.mk (((s.data.dropWhile Char.isWhitespace).reverse.dropWhile Char.isWhitespace).reverse)

/-- `a.startswith(b)` / SQL `LIKE b%`. -/
def startsWithStr (s pre : String) : Bool := pre.data.isPrefixOf s.data

/-- `normalize_gender` from `collect_results.py`. -/
def normalize_gender : Option String → String
  | none => "other"
  | some g => if g = "" || pyLower g = "prefer-not-to-say" then "other" else pyLower g

/-- The match `^(\d{1,3})\s*[a-zA-Z]*$` of `find_runner`, returning the digit
group when the (already stripped) identifier is registration-style. -/
def regDigits (s : String) : Option String :=
  let cs := s.data
  let ds := cs.takeWhile (·.isDigit)
  let rest := (cs.dropWhile (·.isDigit)).dropWhile (·.isWhitespace)
  if 1 ≤ ds.length && ds.length ≤ 3 && rest.all (·.isAlpha) then
    some (String.mk ds)
  else none

/-- `find_runner` from `collect_results.py`: registration-style identifiers try
an exact `registration_number` match, then a `LIKE digits%` fallback taking the
first row; other identifiers match `staff_student_number` exactly. -/
def find_runner (runners : List Runner) (input_id : String) : Option Runner :=
  let t := pyStrip input_id
  match regDigits t with
  | some reg_num =>
    match runners.find? (fun r => r.registration_number == t) with
    | some runner => some runner
    | none => runners.find? (fun r => startsWithStr r.registration_number reg_num)
  | none => runners.find? (fun r => r.staff_student_number == t)

inductive FinishOutcome where
  | notStarted
  | notFound
  | alreadyFinished
  | crash
  | ok
  deriving DecidableEq

/-- The single-row UPDATE `SET elapsed, position, gender_pos WHERE id = ?`. -/
def setFinish (rid : Nat) (e : Int) (pos gpos : Nat) (q : Runner) : Runner :=
  if q.id = rid then
    { q with elapsed := some e, position := some pos, gender_pos := some gpos }
  else q

/-- `record_finish` from `collect_results.py`.  Note the source tests
`if runner['elapsed']:` (truthiness), not `is not None`; `crash` models the
`KeyError` raised when the normalized gender is not a counter key. -/
def record_finish (s : RaceState) (now : Int) (runner_id : String) :
    FinishOutcome × RaceState :=
  match truthyInt s.start_time with
  | false => (.notStarted, s)
  | true =>
    match find_runner s.runners runner_id with
    | none => (.notFound, s)
    | some runner =>
      match truthyInt runner.elapsed with
      | true => (.alreadyFinished, s)
      | false =>
        match s.gender_positions.lookup (normalize_gender runner.gender) with
        | none => (.crash, s)
        | some gp =>
          (.ok,
            { s with
              runners := s.runners.map
                (setFinish runner.id (now - s.start_time.getD 0) s.current_position gp),
              current_position := s.current_position + 1,
              gender_positions := s.gender_positions.incr (normalize_gender runner.gender) })

def maxOf (l : List Nat) : Nat := l.foldr max 0

/-- `1 + max` seeding with the source's truthiness test on the SQL `MAX`. -/
def seedFrom (l : List Nat) : Nat :=
  let m := maxOf l
  if m ≠ 0 then m + 1 else 1

def seedOverall (runners : List Runner) : Nat :=
  seedFrom (runners.filterMap (·.position))

/-- Gender counter seeding uses the RAW stored gender text (`WHERE gender = ?`),
unlike `record_finish` which counts by normalized gender. -/
def seedGenderRaw (runners : List Runner) (g : String) : Nat :=
  seedFrom (runners.filterMap fun r => if r.gender = some g then r.gender_pos else none)

def seedOther (runners : List Runner) : Nat :=
  seedFrom (runners.filterMap fun r =>
    if r.gender = none || r.gender = some "prefer-not-to-say" then r.gender_pos else none)

/-- `initialize_database` plus `__init__` defaults: counters are reseeded from
the store only when the race has started. -/
def initState (runners : List Runner) (start : Option Int) : RaceState :=
  if truthyInt start then
    { runners := runners, start_time := start,
      current_position := seedOverall runners,
      gender_positions :=
        { male := seedGenderRaw runners "male",
          female := seedGenderRaw runners "female",
          other := seedOther runners } }
  else
    { runners := runners, start_time := none, current_position := 1,
      gender_positions := { male := 1, female := 1, other := 1 } }

/-- A console session: a list of (wall-clock instant, entered identifier)
pairs fed to `record_finish`; returns the final state and the number of
successful finishes. -/
def runCalls : RaceState → List (Int × String) → RaceState × Nat
  | s, [] => (s, 0)
  | s, c :: rest =>
    let step := record_finish s c.1 c.2
    let res := runCalls step.2 rest
    (res.1, (if step.1 = FinishOutcome.ok then 1 else 0) + res.2)

def resolveId (runners : List Runner) (ident : String) : Option Nat :=
  (find_runner runners ident).map (·.id)

/-! ## Ranking-engine queries -/

/-- `ORDER BY elapsed ASC` comparator (SQLite sorts NULL first). -/
def optIntLe : Option Int → Option Int → Bool
  | none, _ => true
  | some _, none => false
  | some x, some y => decide (x ≤ y)

def optNatLe : Option Nat → Option Nat → Bool
  | none, _ => true
  | some _, none => false
  | some x, some y => decide (x ≤ y)

def elapsedLe (a b : Runner) : Bool := optIntLe a.elapsed b.elapsed

def genderPosLe (a b : Runner) : Bool := optNatLe a.gender_pos b.gender_pos

/-- `ORDER BY position DESC` comparator. -/
def posDesc (a b : Runner) : Bool := optNatLe b.position a.position

/-- SQL `SUM` operand: elapsed with NULL contributing nothing. -/
def elVal (r : Runner) : Int := r.elapsed.getD 0

/-- `get_top_individual_results` from `race_results_display.py`: raw gender
equality, `gender_pos IS NOT NULL`, ordered by `gender_pos`, first `lim`. -/
def get_top_individual_results (runners : List Runner) (gender : String) (lim : Nat) :
    List Runner :=
  (isort genderPosLe (runners.filter fun r =>
    r.gender == some gender && r.gender_pos.isSome)).take lim

/-- The spec's `top_n_by_gender`, written from the spec's words: normalized
gender equals the bucket, elapsed non-null, ordered by elapsed ascending,
first `n`.  Used only to compare against the implementation. -/
def spec_top_n_by_gender (runners : List Runner) (bucket : String) (n : Nat) :
    List Runner :=
  (isort elapsedLe (runners.filter fun r =>
    normalize_gender r.gender == bucket && r.elapsed.isSome)).take n

/-- `get_latest_finishers` from `race_results_display.py`. -/
def get_latest_finishers (runners : List Runner) (lim : Nat) : List Runner :=
  (isort posDesc (runners.filter fun r => r.position.isSome)).take lim

/-- First-occurrence deduplication: the iteration order of a Python
`defaultdict` keyed by organisational unit (insertion order). -/
def dedupFirstAux (seen : List String) : List String → List String
  | [] => []
  | x :: xs =>
    if seen.contains x then dedupFirstAux seen xs
    else x :: dedupFirstAux (x :: seen) xs

def dedupFirst (l : List String) : List String := dedupFirstAux [] l

/-- One unit's entry in `calculate_team_results`: re-sort the unit's runner
list by elapsed, require at least 4 runners, keep the fastest 4 and their sum. -/
def teamRow (grp : List Runner) (u : String) : Option (String × Int × List Runner) :=
  let rs := isort elapsedLe (grp.filter fun r => r.organisational_unit == u)
  if 4 ≤ rs.length then some (u, (((rs.take 4).map elVal).sum, rs.take 4)) else none

/-- `calculate_team_results` from `collect_results.py`, for one gender bucket:
scan finishers ordered by elapsed, group by unit (insertion order), keep units
with at least 4 runners, take the fastest 4, sum their elapsed, and sort teams
by total time (Python's stable sort: ties keep grouping order). -/
def calculate_team_results (runners : List Runner) (gender : String) :
    List (String × Int × List Runner) :=
  let grp := (isort elapsedLe (runners.filter fun r => r.elapsed.isSome)).filter
    fun r => normalize_gender r.gender == gender
  isort (fun a b => decide (a.2.1 ≤ b.2.1))
    ((dedupFirst (grp.map (·.organisational_unit))).filterMap (teamRow grp))

/-- One unit's row in the `ROW_NUMBER ... WHERE rn <= 4 ... HAVING COUNT(*) = 4`
team-total aggregate of `get_top_teams`. -/
def teamTotalRow (ranked : List Runner) (u : String) : Option (String × Int) :=
  let top := (ranked.filter fun r => r.organisational_unit == u).take 4
  if top.length = 4 then some (u, (top.map elVal).sum) else none

/-- The separate per-team member query of `get_top_teams`:
`WHERE organisational_unit = ? AND gender = ? AND position IS NOT NULL
ORDER BY elapsed LIMIT 4`. -/
def teamMembers (runners : List Runner) (gender u : String) : List Runner :=
  (isort elapsedLe (runners.filter fun r =>
    r.organisational_unit == u && r.gender == some gender && r.position.isSome)).take 4

/-- `get_top_teams` from `race_results_display.py`: the team totals come from
the aggregate query, the member lists from a second per-team query. -/
def get_top_teams (runners : List Runner) (gender : String) (lim : Nat) :
    List (String × Int × List Runner) :=
  let ranked := isort elapsedLe
    (runners.filter fun r => r.gender == some gender && r.position.isSome)
  let teams := (isort (fun a b => decide (a.2 ≤ b.2))
    ((dedupFirst (ranked.map (·.organisational_unit))).filterMap (teamTotalRow ranked))).take lim
  teams.map fun t => (t.1, t.2, teamMembers runners gender t.1)

/-- The `FASTEST RUNNER OVERALL` query of `generate_results`:
`WHERE elapsed IS NOT NULL ORDER BY elapsed ASC LIMIT 1`. -/
def fastest_runner (runners : List Runner) : Option Runner :=
  (isort elapsedLe (runners.filter fun r => r.elapsed.isSome)).head?

/-- The `BEST EFFORT RUNNER` query of `generate_results`:
`WHERE elapsed IS NOT NULL ORDER BY position DESC LIMIT 1`. -/
def best_effort_runner (runners : List Runner) : Option Runner :=
  (isort posDesc (runners.filter fun r => r.elapsed.isSome)).head?

def total_finishers (runners : List Runner) : Nat :=
  (runners.filter fun r => r.elapsed.isSome).length

/-- Organisational unit with the most finishers (`GROUP BY` then
`ORDER BY count DESC LIMIT 1`). -/
def top_org (runners : List Runner) : Option (String × Nat) :=
  let pool := runners.filter fun r => r.position.isSome
  let units := dedupFirst (pool.map (·.organisational_unit))
  let counts := units.map fun u =>
    (u, (pool.filter fun r => r.organisational_unit == u).length)
  (isort (fun a b => decide (b.2 ≤ a.2)) counts).head?

/-- `get_display_name` from `race_results_display.py`. -/
def get_display_name (first_name last_name : String) (lr : Option String) : String :=
  if lr = some "not" then "Anonymous" else first_name ++ " " ++ last_name

/-- `get_display_name_html` from `collect_results.py`. -/
def get_display_name_html (first_name last_name : String) (lr : Option String) : String :=
  if lr = some "no" then "Anonymous" else first_name ++ " " ++ last_name

/-! ## Observations for the claims -/

def positionsOf (runners : List Runner) : List Nat := runners.filterMap (·.position)

def genderPosOf (runners : List Runner) (g : String) : List Nat :=
  runners.filterMap fun r => if normalize_gender r.gender = g then r.gender_pos else none

def bucketFinishers (runners : List Runner) (g : String) : Nat :=
  (runners.filter fun r => r.elapsed.isSome && normalize_gender r.gender == g).length

/-- Erase the display preference; two stores related by `Related` are
identical except for `list_results` values. -/
def scrub (r : Runner) : Runner := { r with list_results := none }

def Related (s t : RaceState) : Prop :=
  s.runners.map scrub = t.runners.map scrub ∧
  s.start_time = t.start_time ∧
  s.current_position = t.current_position ∧
  s.gender_positions = t.gender_positions

/-! ## Concrete stores used as inputs to the claims -/

def mkRunner (i : Nat) (reg ssn : String) (g : Option String) (unit : String)
    (lr : Option String) (e : Option Int) (p gp : Option Nat) : Runner :=
  ⟨i, reg, ssn, "First", "Last", g, unit, lr, e, p, gp⟩

def c7a : Runner := mkRunner 1 "120" "s120" (some "male") "U" none none none none
def c7b : Runner := mkRunner 2 "121" "s121" (some "male") "U" none none none none

/-- C7: "find_runner" consults the prefix fallback and returns whichever row
the store yields first; there is no `Ambiguous` rejection anywhere — neither
the result type nor the code path can express one.  With no exact "12" and
both "120" and "121" present, the first prefix match is returned. -/
theorem find_runner_prefix_fallback_first_match :
    find_runner [c7a, c7b] "12" = some c7a ∧
    c7b ∈ [c7a, c7b] ∧ startsWithStr c7b.registration_number "12" = true := by
  decide

def c6a : Runner := mkRunner 1 "1" "s1" (some "male") "U" none (some 100) (some 1) (some 1)
def c6b : Runner := mkRunner 2 "2" "s2" (some "male") "U" none (some 50) (some 2) (some 2)

/-- C6: the "best effort"/last-finisher query orders by assigned position, not
elapsed.  In a store where arrival order and elapsed order diverge it reports
the runner with elapsed 50 although a finisher with elapsed 100 exists; the
fastest-runner query does pick the minimum elapsed. -/
theorem best_effort_runner_not_max_elapsed :
    best_effort_runner [c6a, c6b] = some c6b ∧
    c6b.elapsed = some 50 ∧
    c6a ∈ [c6a, c6b] ∧ c6a.elapsed = some 100 ∧
    fastest_runner [c6a, c6b] = some c6b := by
  decide

def c2a : Runner := mkRunner 1 "1" "s1" (some "male") "U" none (some 0) (some 1) (some 1)

def c2state : RaceState := initState [c2a] (some 1000)

/-- C2: `record_finish` tests `if runner['elapsed']:` — truthiness, not
non-null.  A participant who finished in the same second as the start has
elapsed 0; a second finish attempt is accepted, not rejected, and the store
is overwritten (elapsed 0 → 5, position 1 → 2, gender_pos 1 → 2). -/
theorem record_finish_elapsed_zero_refinished :
    (record_finish c2state 1005 "1").1 = FinishOutcome.ok ∧
    (record_finish c2state 1005 "1").2 ≠ c2state ∧
    ((record_finish c2state 1005 "1").2.runners.map (·.elapsed)) = [some 5] ∧
    ((record_finish c2state 1005 "1").2.runners.map (·.position)) = [some 2] := by
  decide

def c4a : Runner := mkRunner 1 "1" "s1" (some "Male") "U" none (some 100) (some 1) (some 1)
def c4b : Runner := mkRunner 2 "2" "s2" (some "Male") "U" none none none none

def c4state : RaceState := initState [c4a, c4b] (some 1000)

/-- C4: the allocator reseeds gender counters with a raw `WHERE gender = ?`
query while `record_finish` counts by normalized gender.  A finished runner
with stored gender "Male" (normalized "male", gender_pos 1) is missed by the
reseed, so the male counter restarts at 1 and the next male finish collides
with the existing gender position. -/
theorem initState_gender_seed_collision :
    normalize_gender (some "Male") = "male" ∧
    c4state.gender_positions.lookup "male" = some 1 ∧
    (record_finish c4state 1100 "2").1 = FinishOutcome.ok ∧
    ((record_finish c4state 1100 "2").2.runners.map (·.gender_pos)) = [some 1, some 1] ∧
    genderPosOf (record_finish c4state 1100 "2").2.runners "male" = [1, 1] := by
  decide

/-- C8: when the (stripped) identifier is registration-style, an existing
exact `registration_number` match is returned and the prefix fallback is never
consulted; a non-registration-style identifier is matched exactly against
`staff_student_number` only. -/
theorem find_runner_exact_match_wins (runners : List Runner) (ident : String) :
    (∀ d, regDigits (pyStrip ident) = some d →
      (∃ r, r ∈ runners ∧ r.registration_number = pyStrip ident) →
      find_runner runners ident
          = runners.find? (fun r => r.registration_number == pyStrip ident) ∧
        ∃ a, find_runner runners ident = some a ∧ a.registration_number = pyStrip ident) ∧
    (regDigits (pyStrip ident) = none →
      find_runner runners ident
        = runners.find? (fun r => r.staff_student_number == pyStrip ident)) := by
  constructor
  · intro d hd hex
    have hsome : (runners.find? (fun r => r.registration_number == pyStrip ident)).isSome := by
      rw [List.find?_isSome]
      obtain ⟨r, hr, he⟩ := hex
      exact ⟨r, hr, by simp [he]⟩
    obtain ⟨a, ha⟩ := Option.isSome_iff_exists.mp hsome
    have hpa := List.find?_some ha
    refine ⟨by simp [find_runner, hd, ha], a, by simp [find_runner, hd, ha], by simpa using hpa⟩
  · intro hno
    simp [find_runner, hno]

def c8a : Runner := mkRunner 1 "125" "s125" (some "male") "U" none none none none
def c8b : Runner := mkRunner 2 "12" "s12" (some "male") "U" none none none none

/-- Witness for C8 at a concrete input: "12" with both "12" and "125" present
resolves to the exact match "12". -/
theorem find_runner_exact_match_wins_witness :
    regDigits (pyStrip "12") = some "12" ∧
    (∃ r, r ∈ [c8a, c8b] ∧ r.registration_number = pyStrip "12") ∧
    find_runner [c8a, c8b] "12" = some c8b := by
  refine ⟨by decide, ⟨c8b, by decide, by decide⟩, ?_⟩
  have h := ((find_runner_exact_match_wins [c8a, c8b] "12").1 "12" (by decide)
    ⟨c8b, by decide, by decide⟩).1
  rw [h]
  decide

/-! ## Comparator facts -/

theorem optIntLe_trans (a b c : Option Int) (h1 : optIntLe a b = true)
    (h2 : optIntLe b c = true) : optIntLe a c = true := by
  cases a <;> cases b <;> cases c <;> simp [optIntLe] at * <;> omega

theorem optIntLe_total (a b : Option Int) (h : optIntLe a b = false) :
    optIntLe b a = true := by
  cases a <;> cases b <;> simp [optIntLe] at * <;> omega

theorem optNatLe_trans (a b c : Option Nat) (h1 : optNatLe a b = true)
    (h2 : optNatLe b c = true) : optNatLe a c = true := by
  cases a <;> cases b <;> cases c <;> simp [optNatLe] at * <;> omega

theorem optNatLe_total (a b : Option Nat) (h : optNatLe a b = false) :
    optNatLe b a = true := by
  cases a <;> cases b <;> simp [optNatLe] at * <;> omega

theorem elapsedLe_trans (a b c : Runner) (h1 : elapsedLe a b = true)
    (h2 : elapsedLe b c = true) : elapsedLe a c = true :=
  optIntLe_trans _ _ _ h1 h2

theorem elapsedLe_total (a b : Runner) (h : elapsedLe a b = false) :
    elapsedLe b a = true :=
  optIntLe_total _ _ h

theorem genderPosLe_trans (a b c : Runner) (h1 : genderPosLe a b = true)
    (h2 : genderPosLe b c = true) : genderPosLe a c = true :=
  optNatLe_trans _ _ _ h1 h2

theorem genderPosLe_total (a b : Runner) (h : genderPosLe a b = false) :
    genderPosLe b a = true :=
  optNatLe_total _ _ h

theorem posDesc_trans (a b c : Runner) (h1 : posDesc a b = true)
    (h2 : posDesc b c = true) : posDesc a c = true :=
  optNatLe_trans _ _ _ h2 h1

theorem posDesc_total (a b : Runner) (h : posDesc a b = false) :
    posDesc b a = true :=
  optNatLe_total _ _ h

/-! ## C5 -/

def c5a : Runner := mkRunner 1 "1" "s1" (some "male") "U" none (some 20) (some 2) (some 2)
def c5b : Runner := mkRunner 2 "2" "s2" (some "male") "U" none (some 30) (some 1) (some 1)
def c5c : Runner := mkRunner 3 "3" "s3" (some "MALE") "U" none (some 10) (some 3) (some 3)

/-- C5 counterexample: the implemented top-N query selects on raw gender text
('MALE' is excluded although it normalizes to 'male') and orders by
gender_pos, not elapsed, so its output differs from the spec's
elapsed-ordered, normalized-gender selection. -/
theorem get_top_individual_results_ne_spec :
    get_top_individual_results [c5a, c5b, c5c] "male" 3 = [c5b, c5a] ∧
    spec_top_n_by_gender [c5a, c5b, c5c] "male" 3 = [c5c, c5a, c5b] ∧
    get_top_individual_results [c5a, c5b, c5c] "male" 3
      ≠ spec_top_n_by_gender [c5a, c5b, c5c] "male" 3 := by
  decide

/-- C5 (amended): the implemented query returns exactly the participants whose
raw stored gender equals the bucket and whose gender_position is non-null,
ordered by gender_position ascending, truncated to the first n. -/
theorem get_top_individual_results_amended (runners : List Runner) (g : String) (n : Nat) :
    (∀ r ∈ get_top_individual_results runners g n,
      r.gender = some g ∧ r.gender_pos.isSome = true ∧ r ∈ runners) ∧
    (get_top_individual_results runners g n).Pairwise (fun a b => genderPosLe a b = true) ∧
    (get_top_individual_results runners g n).length
      = min n ((runners.filter fun r => r.gender == some g && r.gender_pos.isSome).length) ∧
    ((runners.filter fun r => r.gender == some g && r.gender_pos.isSome).length ≤ n →
      ∀ r ∈ runners, r.gender = some g → r.gender_pos.isSome = true →
        r ∈ get_top_individual_results runners g n) := by
  refine ⟨?_, ?_, ?_, ?_⟩
  · intro r hr
    have h1 : r ∈ isort genderPosLe
        (runners.filter fun r => r.gender == some g && r.gender_pos.isSome) :=
      (List.take_sublist _ _).subset hr
    have h2 := (mem_isort _ _ _).mp h1
    rcases List.mem_filter.mp h2 with ⟨hmem, hp⟩
    simp only [Bool.and_eq_true, beq_iff_eq] at hp
    exact ⟨hp.1, hp.2, hmem⟩
  · exact (isort_pairwise genderPosLe genderPosLe_trans genderPosLe_total _).sublist
      (List.take_sublist _ _) |>.imp id
  · simp [get_top_individual_results, List.length_take, length_isort]
  · intro hle r hr hg hgp
    have : (isort genderPosLe
        (runners.filter fun r => r.gender == some g && r.gender_pos.isSome)).length ≤ n := by
      rw [length_isort]; exact hle
    simp only [get_top_individual_results, List.take_of_length_le this]
    exact (mem_isort _ _ _).mpr (List.mem_filter.mpr ⟨hr, by simp [hg, hgp]⟩)

/-- Witness for the amended C5 at a concrete store. -/
theorem get_top_individual_results_amended_witness :
    c5b ∈ get_top_individual_results [c5a, c5b, c5c] "male" 3 ∧
    c5b.gender = some "male" ∧
    (get_top_individual_results [c5a, c5b, c5c] "male" 3).length
      = min 3 (([c5a, c5b, c5c].filter fun r =>
          r.gender == some "male" && r.gender_pos.isSome).length) := by
  refine ⟨by decide, ?_, ?_⟩
  · exact ((get_top_individual_results_amended [c5a, c5b, c5c] "male" 3).1 c5b (by decide)).1
  · exact (get_top_individual_results_amended [c5a, c5b, c5c] "male" 3).2.2.1

theorem isort_isort (le : α → α → Bool)
    (htrans : ∀ a b c, le a b = true → le b c = true → le a c = true)
    (htot : ∀ a b, le a b = false → le b a = true) (l : List α) :
    isort le (isort le l) = isort le l :=
  isort_eq_of_pairwise le _ (isort_pairwise le htrans htot l)

/-! ## C3 -/

/-- The finished runners of normalized gender `g` in organisational unit `u`,
in table order after the elapsed-ordered scan filters of
`calculate_team_results`. -/
def unitPool (runners : List Runner) (g u : String) : List Runner :=
  ((runners.filter fun r => r.elapsed.isSome).filter
    fun r => normalize_gender r.gender == g).filter
    fun r => r.organisational_unit == u

def c3r1 : Runner := mkRunner 1 "1" "t1" (some "male") "B" none (some 5) none none
def c3r2 : Runner := mkRunner 2 "2" "t2" (some "male") "B" none (some 30) none none
def c3r3 : Runner := mkRunner 3 "3" "t3" (some "male") "B" none (some 32) none none
def c3r4 : Runner := mkRunner 4 "4" "t4" (some "male") "B" none (some 35) none none
def c3r5 : Runner := mkRunner 5 "5" "t5" (some "male") "A" none (some 10) none none
def c3r6 : Runner := mkRunner 6 "6" "t6" (some "male") "A" none (some 28) none none
def c3r7 : Runner := mkRunner 7 "7" "t7" (some "male") "A" none (some 31) none none
def c3r8 : Runner := mkRunner 8 "8" "t8" (some "male") "A" none (some 33) none none

def c3runners : List Runner := [c3r1, c3r2, c3r3, c3r4, c3r5, c3r6, c3r7, c3r8]

def c3team : String × Int × List Runner := ("B", 102, [c3r1, c3r2, c3r3, c3r4])

/-- C3 counterexample: units "A" and "B" both total 102; the code's stable
sort leaves the tie in grouping order (unit "B" appears first in the
elapsed-ordered scan), not unit-name-ascending order, so the output is
[B, A] where the claim requires [A, B]. -/
theorem calculate_team_results_tie_not_by_name :
    (calculate_team_results c3runners "male").map (fun t => (t.1, t.2.1))
      = [("B", 102), ("A", 102)] := by
  decide

/-- C3 (amended): every team has at least 4 finishers of that normalized
gender in its unit, exactly 4 members that are the lowest-elapsed finishers of
the unit sorted by elapsed ascending, its score is the sum of those 4 elapsed
times, and teams are sorted by score ascending — ties keeping the order units
first appear in the elapsed-ordered scan, not unit-name order. -/
theorem calculate_team_results_amended (runners : List Runner) (g : String) :
    (calculate_team_results runners g).Pairwise (fun a b => a.2.1 ≤ b.2.1) ∧
    ∀ t ∈ calculate_team_results runners g,
      4 ≤ (unitPool runners g t.1).length ∧
      t.2.2.length = 4 ∧
      t.2.2.Pairwise (fun a b => elapsedLe a b = true) ∧
      (∀ m ∈ t.2.2, m ∈ unitPool runners g t.1) ∧
      t.2.1 = (t.2.2.map elVal).sum ∧
      t.2.2.map (·.elapsed)
        = (isort optIntLe ((unitPool runners g t.1).map (·.elapsed))).take 4 := by
  have hTle : ∀ a b c : String × Int × List Runner,
      decide (a.2.1 ≤ b.2.1) = true → decide (b.2.1 ≤ c.2.1) = true →
      decide (a.2.1 ≤ c.2.1) = true := by
    intro a b c h1 h2
    simp only [decide_eq_true_eq] at *
    omega
  have hTtot : ∀ a b : String × Int × List Runner,
      decide (a.2.1 ≤ b.2.1) = false → decide (b.2.1 ≤ a.2.1) = true := by
    intro a b h
    simp only [decide_eq_true_eq, decide_eq_false_iff_not] at *
    omega
  constructor
  · simp only [calculate_team_results]
    exact (isort_pairwise _ hTle hTtot _).imp (fun h => by simpa using h)
  · intro t ht
    simp only [calculate_team_results] at ht
    have ht' := (mem_isort _ _ _).mp ht
    rcases List.mem_filterMap.mp ht' with ⟨u, hu, hrow⟩
    have hG : ((isort elapsedLe (runners.filter fun r => r.elapsed.isSome)).filter
          fun r => normalize_gender r.gender == g).filter
          (fun r => r.organisational_unit == u)
        = isort elapsedLe (unitPool runners g u) := by
      rw [filter_isort elapsedLe _ elapsedLe_trans elapsedLe_total,
        filter_isort elapsedLe _ elapsedLe_trans elapsedLe_total]
      rfl
    simp only [teamRow, hG, isort_isort elapsedLe elapsedLe_trans elapsedLe_total] at hrow
    by_cases h4 : 4 ≤ (isort elapsedLe (unitPool runners g u)).length
    · rw [if_pos h4] at hrow
      injection hrow with hrow
      subst hrow
      have hlen : 4 ≤ (unitPool runners g u).length := by
        rwa [length_isort] at h4
      refine ⟨hlen, ?_, ?_, ?_, rfl, ?_⟩
      · rw [List.length_take, length_isort]
        exact Nat.min_eq_left hlen
      · exact ((isort_pairwise elapsedLe elapsedLe_trans elapsedLe_total _).sublist
          (List.take_sublist _ _))
      · intro m hm
        exact (mem_isort _ _ _).mp ((List.take_sublist _ _).subset hm)
      · rw [List.map_take]
        congr 1
        exact map_isort elapsedLe optIntLe (·.elapsed) (fun a b => rfl) _
    · rw [if_neg h4] at hrow
      exact absurd hrow (by simp)

/-- Witness for the amended C3 at a concrete store. -/
theorem calculate_team_results_amended_witness :
    c3team ∈ calculate_team_results c3runners "male" ∧
    c3team.2.2.length = 4 ∧
    c3team.2.1 = (c3team.2.2.map elVal).sum := by
  refine ⟨by decide, ?_, ?_⟩
  · exact ((calculate_team_results_amended c3runners "male").2 c3team (by decide)).2.1
  · exact ((calculate_team_results_amended c3runners "male").2 c3team (by decide)).2.2.2.2.1

/-! ## C10 -/

/-- C10: although the team total comes from the `ROW_NUMBER` aggregate and the
member list from a separate `ORDER BY elapsed LIMIT 4` query, each reported
total equals the sum of the elapsed times of the 4 listed members. -/
theorem get_top_teams_total_matches_members (runners : List Runner) (g : String) (lim : Nat) :
    ∀ t ∈ get_top_teams runners g lim,
      t.2.1 = (t.2.2.map elVal).sum ∧ t.2.2.length = 4 := by
  intro t ht
  simp only [get_top_teams] at ht
  rcases List.mem_map.mp ht with ⟨t', ht', rfl⟩
  have h2 := (mem_isort _ _ _).mp ((List.take_sublist _ _).subset ht')
  rcases List.mem_filterMap.mp h2 with ⟨u, hu, hrow⟩
  have hpool : (runners.filter fun r =>
        r.organisational_unit == u && (r.gender == some g && r.position.isSome))
      = ((runners.filter fun r => r.gender == some g && r.position.isSome).filter
        fun r => r.organisational_unit == u) := by
    rw [List.filter_filter]
  have hmem : teamMembers runners g u
      = (((isort elapsedLe (runners.filter fun r =>
          r.gender == some g && r.position.isSome)).filter
          fun r => r.organisational_unit == u).take 4) := by
    rw [filter_isort elapsedLe _ elapsedLe_trans elapsedLe_total]
    simp only [teamMembers, Bool.and_assoc, hpool]
  simp only [teamTotalRow] at hrow
  by_cases hc : (((isort elapsedLe (runners.filter fun r =>
      r.gender == some g && r.position.isSome)).filter
      fun r => r.organisational_unit == u).take 4).length = 4
  · rw [if_pos hc] at hrow
    injection hrow with hrow
    subst hrow
    refine ⟨by rw [hmem], by rw [hmem]; exact hc⟩
  · rw [if_neg hc] at hrow
    exact absurd hrow (by simp)

def c10r1 : Runner := mkRunner 1 "1" "u1" (some "male") "U" none (some 10) (some 1) (some 1)
def c10r2 : Runner := mkRunner 2 "2" "u2" (some "male") "U" none (some 20) (some 2) (some 2)
def c10r3 : Runner := mkRunner 3 "3" "u3" (some "male") "U" none (some 30) (some 3) (some 3)
def c10r4 : Runner := mkRunner 4 "4" "u4" (some "male") "U" none (some 40) (some 4) (some 4)

def c10team : String × Int × List Runner := ("U", 100, [c10r1, c10r2, c10r3, c10r4])

/-- Witness for C10 at a concrete store. -/
theorem get_top_teams_total_matches_members_witness :
    c10team ∈ get_top_teams [c10r1, c10r2, c10r3, c10r4] "male" 2 ∧
    c10team.2.1 = (c10team.2.2.map elVal).sum ∧ c10team.2.2.length = 4 := by
  refine ⟨by decide, ?_⟩
  exact get_top_teams_total_matches_members [c10r1, c10r2, c10r3, c10r4] "male" 2
    c10team (by decide)

/-! ## C9: display preference does not affect ranking -/

theorem map_scrub_filter (p : Runner → Bool) (hp : ∀ r, p (scrub r) = p r)
    (l l' : List Runner) (h : l.map scrub = l'.map scrub) :
    (l.filter p).map scrub = (l'.filter p).map scrub := by
  have key : ∀ m : List Runner, (m.filter p).map scrub = (m.map scrub).filter p := by
    intro m
    rw [List.filter_map]
    congr 1
    apply List.filter_congr
    intro a _
    exact (hp a).symm
  rw [key, key, h]

theorem map_scrub_find? (p : Runner → Bool) (hp : ∀ r, p (scrub r) = p r)
    (l l' : List Runner) (h : l.map scrub = l'.map scrub) :
    (l.find? p).map scrub = (l'.find? p).map scrub := by
  have key : ∀ m : List Runner, (m.find? p).map scrub = (m.map scrub).find? p := by
    intro m
    induction m with
    | nil => rfl
    | cons a as ih =>
      by_cases hpa : p a = true
      · have h2 : p (scrub a) = true := by rw [hp a]; exact hpa
        rw [List.find?_cons_of_pos _ hpa, List.map_cons, List.find?_cons_of_pos _ h2]
        rfl
      · have h2 : ¬ p (scrub a) = true := by rw [hp a]; exact hpa
        rw [List.find?_cons_of_neg _ hpa, List.map_cons, List.find?_cons_of_neg _ h2]
        exact ih
  calc (l.find? p).map scrub = (l.map scrub).find? p := key l
    _ = (l'.map scrub).find? p := by rw [h]
    _ = (l'.find? p).map scrub := (key l').symm

theorem map_scrub_isort (le : Runner → Runner → Bool)
    (hle : ∀ a b, le a b = le (scrub a) (scrub b))
    (l l' : List Runner) (h : l.map scrub = l'.map scrub) :
    (isort le l).map scrub = (isort le l').map scrub := by
  rw [map_isort le le scrub hle, map_isort le le scrub hle, h]

theorem map_eq_of_scrub_eq {β : Type} (f : Runner → β) (hf : ∀ r, f (scrub r) = f r)
    (l l' : List Runner) (h : l.map scrub = l'.map scrub) : l.map f = l'.map f := by
  have key : ∀ m : List Runner, m.map f = (m.map scrub).map f := by
    intro m
    rw [List.map_map]
    apply List.map_congr_left
    intro a _
    exact (hf a).symm
  calc l.map f = (l.map scrub).map f := key l
    _ = (l'.map scrub).map f := by rw [h]
    _ = l'.map f := (key l').symm

theorem length_eq_of_scrub_eq (l l' : List Runner) (h : l.map scrub = l'.map scrub) :
    l.length = l'.length := by
  have := congrArg List.length h
  simpa using this

theorem find_runner_scrub (l l' : List Runner) (h : l.map scrub = l'.map scrub)
    (ident : String) :
    (find_runner l ident).map scrub = (find_runner l' ident).map scrub := by
  simp only [find_runner]
  cases hreg : regDigits (pyStrip ident) with
  | none =>
    exact map_scrub_find? (fun r => r.staff_student_number == pyStrip ident)
      (fun r => rfl) l l' h
  | some d =>
    have h1 := map_scrub_find? (fun r => r.registration_number == pyStrip ident)
      (fun r => rfl) l l' h
    cases he : l.find? (fun r => r.registration_number == pyStrip ident) with
    | some a =>
      cases he' : l'.find? (fun r => r.registration_number == pyStrip ident) with
      | none => rw [he, he'] at h1; simp at h1
      | some b =>
        rw [he, he'] at h1
        simp only [Option.map_some'] at h1
        simp [he, he', h1]
    | none =>
      cases he' : l'.find? (fun r => r.registration_number == pyStrip ident) with
      | some b => rw [he, he'] at h1; simp at h1
      | none =>
        simp only [he, he']
        exact map_scrub_find? (fun r => startsWithStr r.registration_number d)
          (fun r => rfl) l l' h

theorem scrub_setFinish (rid : Nat) (e : Int) (p gp : Nat) (q : Runner) :
    scrub (setFinish rid e p gp q) = setFinish rid e p gp (scrub q) := by
  unfold setFinish scrub
  by_cases h : q.id = rid <;> simp [h]

theorem map_scrub_setFinish (rid : Nat) (e : Int) (p gp : Nat)
    (l l' : List Runner) (h : l.map scrub = l'.map scrub) :
    (l.map (setFinish rid e p gp)).map scrub = (l'.map (setFinish rid e p gp)).map scrub := by
  have hc : scrub ∘ setFinish rid e p gp = setFinish rid e p gp ∘ scrub :=
    funext (scrub_setFinish rid e p gp)
  calc (l.map (setFinish rid e p gp)).map scrub
      = l.map (scrub ∘ setFinish rid e p gp) := by rw [List.map_map]
    _ = l.map (setFinish rid e p gp ∘ scrub) := by rw [hc]
    _ = (l.map scrub).map (setFinish rid e p gp) := by rw [List.map_map]
    _ = (l'.map scrub).map (setFinish rid e p gp) := by rw [h]
    _ = l'.map (setFinish rid e p gp ∘ scrub) := by rw [List.map_map]
    _ = l'.map (scrub ∘ setFinish rid e p gp) := by rw [hc]
    _ = (l'.map (setFinish rid e p gp)).map scrub := by rw [List.map_map]

theorem scrub_elapsed (r : Runner) : (scrub r).elapsed = r.elapsed := rfl

theorem scrub_gender_eq (r : Runner) : (scrub r).gender = r.gender := rfl

theorem scrub_id_eq (r : Runner) : (scrub r).id = r.id := rfl

theorem record_finish_scrub (s t : RaceState) (h : Related s t) (now : Int)
    (ident : String) :
    (record_finish s now ident).1 = (record_finish t now ident).1 ∧
    Related (record_finish s now ident).2 (record_finish t now ident).2 := by
  obtain ⟨hr, hst, hcp, hgp⟩ := h
  simp only [record_finish, hst]
  cases h0 : truthyInt t.start_time with
  | false => exact ⟨rfl, hr, hst, hcp, hgp⟩
  | true =>
    have hfind := find_runner_scrub s.runners t.runners hr ident
    cases hs1 : find_runner s.runners ident with
    | none =>
      cases ht1 : find_runner t.runners ident with
      | none => exact ⟨rfl, hr, hst, hcp, hgp⟩
      | some b => rw [hs1, ht1] at hfind; simp at hfind
    | some a =>
      cases ht1 : find_runner t.runners ident with
      | none => rw [hs1, ht1] at hfind; simp at hfind
      | some b =>
        rw [hs1, ht1] at hfind
        have hab : scrub a = scrub b := by simpa using hfind
        have hel : a.elapsed = b.elapsed := by
          rw [← scrub_elapsed a, ← scrub_elapsed b, hab]
        have hg : a.gender = b.gender := by
          rw [← scrub_gender_eq a, ← scrub_gender_eq b, hab]
        have hid : a.id = b.id := by
          rw [← scrub_id_eq a, ← scrub_id_eq b, hab]
        dsimp only
        rw [hel, hg, hid, hgp, hcp]
        cases h2 : truthyInt b.elapsed with
        | true => exact ⟨rfl, hr, hst, hcp, hgp⟩
        | false =>
          cases h3 : t.gender_positions.lookup (normalize_gender b.gender) with
          | none => exact ⟨rfl, hr, hst, hcp, hgp⟩
          | some gp =>
            refine ⟨rfl, ?_, rfl, rfl, rfl⟩
            exact map_scrub_setFinish _ _ _ _ _ _ hr

theorem get_top_individual_results_scrub (l l' : List Runner)
    (h : l.map scrub = l'.map scrub) (g : String) (n : Nat) :
    (get_top_individual_results l g n).map scrub
      = (get_top_individual_results l' g n).map scrub := by
  simp only [get_top_individual_results]
  rw [List.map_take, List.map_take]
  congr 1
  exact map_scrub_isort genderPosLe (fun a b => rfl) _ _
    (map_scrub_filter (fun r => r.gender == some g && r.gender_pos.isSome)
      (fun r => rfl) l l' h)

theorem get_latest_finishers_scrub (l l' : List Runner)
    (h : l.map scrub = l'.map scrub) (n : Nat) :
    (get_latest_finishers l n).map scrub = (get_latest_finishers l' n).map scrub := by
  simp only [get_latest_finishers]
  rw [List.map_take, List.map_take]
  congr 1
  exact map_scrub_isort posDesc (fun a b => rfl) _ _
    (map_scrub_filter (fun r => r.position.isSome) (fun r => rfl) l l' h)

theorem fastest_runner_scrub (l l' : List Runner) (h : l.map scrub = l'.map scrub) :
    (fastest_runner l).map scrub = (fastest_runner l').map scrub := by
  simp only [fastest_runner]
  rw [← List.head?_map, ← List.head?_map]
  congr 1
  exact map_scrub_isort elapsedLe (fun a b => rfl) _ _
    (map_scrub_filter (fun r => r.elapsed.isSome) (fun r => rfl) l l' h)

theorem best_effort_runner_scrub (l l' : List Runner) (h : l.map scrub = l'.map scrub) :
    (best_effort_runner l).map scrub = (best_effort_runner l').map scrub := by
  simp only [best_effort_runner]
  rw [← List.head?_map, ← List.head?_map]
  congr 1
  exact map_scrub_isort posDesc (fun a b => rfl) _ _
    (map_scrub_filter (fun r => r.elapsed.isSome) (fun r => rfl) l l' h)

theorem total_finishers_scrub (l l' : List Runner) (h : l.map scrub = l'.map scrub) :
    total_finishers l = total_finishers l' := by
  simp only [total_finishers]
  exact length_eq_of_scrub_eq _ _
    (map_scrub_filter (fun r => r.elapsed.isSome) (fun r => rfl) l l' h)

theorem top_org_scrub (l l' : List Runner) (h : l.map scrub = l'.map scrub) :
    top_org l = top_org l' := by
  have hpool := map_scrub_filter (fun r => r.position.isSome) (fun r => rfl) l l' h
  have hunits : ((l.filter fun r => r.position.isSome).map (·.organisational_unit))
      = ((l'.filter fun r => r.position.isSome).map (·.organisational_unit)) :=
    map_eq_of_scrub_eq (fun r => r.organisational_unit) (fun r => rfl) _ _ hpool
  have hcnt : ∀ u : String,
      ((l.filter fun r => r.position.isSome).filter
        fun r => r.organisational_unit == u).length
      = ((l'.filter fun r => r.position.isSome).filter
        fun r => r.organisational_unit == u).length := by
    intro u
    exact length_eq_of_scrub_eq _ _
      (map_scrub_filter (fun r => r.organisational_unit == u) (fun r => rfl) _ _ hpool)
  simp only [top_org]
  rw [hunits]
  have hmap : (dedupFirst ((l'.filter fun r => r.position.isSome).map
        (·.organisational_unit))).map
        (fun u => (u, ((l.filter fun r => r.position.isSome).filter
          fun r => r.organisational_unit == u).length))
      = (dedupFirst ((l'.filter fun r => r.position.isSome).map
        (·.organisational_unit))).map
        (fun u => (u, ((l'.filter fun r => r.position.isSome).filter
          fun r => r.organisational_unit == u).length)) := by
    apply List.map_congr_left
    intro u _
    rw [hcnt u]
  rw [hmap]

theorem teamTotalRow_scrub (m m' : List Runner) (h : m.map scrub = m'.map scrub)
    (u : String) : teamTotalRow m u = teamTotalRow m' u := by
  have hf := map_scrub_filter (fun r => r.organisational_unit == u) (fun r => rfl) m m' h
  have htake : ((m.filter fun r => r.organisational_unit == u).take 4).map scrub
      = ((m'.filter fun r => r.organisational_unit == u).take 4).map scrub := by
    rw [List.map_take, List.map_take, hf]
  have hlen := length_eq_of_scrub_eq _ _ htake
  have hsum : ((m.filter fun r => r.organisational_unit == u).take 4).map elVal
      = ((m'.filter fun r => r.organisational_unit == u).take 4).map elVal :=
    map_eq_of_scrub_eq elVal (fun r => rfl) _ _ htake
  simp only [teamTotalRow]
  rw [hlen, hsum]

theorem teamMembers_scrub (l l' : List Runner) (h : l.map scrub = l'.map scrub)
    (g u : String) :
    (teamMembers l g u).map scrub = (teamMembers l' g u).map scrub := by
  simp only [teamMembers]
  rw [List.map_take, List.map_take]
  congr 1
  exact map_scrub_isort elapsedLe (fun a b => rfl) _ _
    (map_scrub_filter (fun r =>
      r.organisational_unit == u && r.gender == some g && r.position.isSome)
      (fun r => rfl) l l' h)

theorem get_top_teams_scrub (l l' : List Runner) (h : l.map scrub = l'.map scrub)
    (g : String) (lim : Nat) :
    (get_top_teams l g lim).map (fun x => (x.1, x.2.1, x.2.2.map scrub))
      = (get_top_teams l' g lim).map (fun x => (x.1, x.2.1, x.2.2.map scrub)) := by
  have hrank : (isort elapsedLe
        (l.filter fun r => r.gender == some g && r.position.isSome)).map scrub
      = (isort elapsedLe
        (l'.filter fun r => r.gender == some g && r.position.isSome)).map scrub :=
    map_scrub_isort elapsedLe (fun a b => rfl) _ _
      (map_scrub_filter (fun r => r.gender == some g && r.position.isSome)
        (fun r => rfl) l l' h)
  have hunits : (isort elapsedLe
        (l.filter fun r => r.gender == some g && r.position.isSome)).map
        (·.organisational_unit)
      = (isort elapsedLe
        (l'.filter fun r => r.gender == some g && r.position.isSome)).map
        (·.organisational_unit) :=
    map_eq_of_scrub_eq (fun r => r.organisational_unit) (fun r => rfl) _ _ hrank
  have hrow : teamTotalRow (isort elapsedLe
        (l.filter fun r => r.gender == some g && r.position.isSome))
      = teamTotalRow (isort elapsedLe
        (l'.filter fun r => r.gender == some g && r.position.isSome)) :=
    funext (teamTotalRow_scrub _ _ hrank)
  simp only [get_top_teams]
  rw [hunits, hrow]
  rw [List.map_map, List.map_map]
  apply List.map_congr_left
  intro t _
  show (t.1, t.2, (teamMembers l g t.1).map scrub)
      = (t.1, t.2, (teamMembers l' g t.1).map scrub)
  rw [teamMembers_scrub l l' h g t.1]

theorem teamRow_scrub (m m' : List Runner) (h : m.map scrub = m'.map scrub)
    (u : String) :
    (teamRow m u).map (fun x => (x.1, x.2.1, x.2.2.map scrub))
      = (teamRow m' u).map (fun x => (x.1, x.2.1, x.2.2.map scrub)) := by
  have hf := map_scrub_filter (fun r => r.organisational_unit == u) (fun r => rfl) m m' h
  have hsec : (isort elapsedLe (m.filter fun r => r.organisational_unit == u)).map scrub
      = (isort elapsedLe (m'.filter fun r => r.organisational_unit == u)).map scrub :=
    map_scrub_isort elapsedLe (fun a b => rfl) _ _ hf
  have hlen := length_eq_of_scrub_eq _ _ hsec
  have htake : ((isort elapsedLe (m.filter fun r =>
        r.organisational_unit == u)).take 4).map scrub
      = ((isort elapsedLe (m'.filter fun r =>
        r.organisational_unit == u)).take 4).map scrub := by
    rw [List.map_take, List.map_take, hsec]
  have hsum : ((isort elapsedLe (m.filter fun r =>
        r.organisational_unit == u)).take 4).map elVal
      = ((isort elapsedLe (m'.filter fun r =>
        r.organisational_unit == u)).take 4).map elVal :=
    map_eq_of_scrub_eq elVal (fun r => rfl) _ _ htake
  simp only [teamRow]
  rw [hlen]
  by_cases h4 : 4 ≤ (isort elapsedLe (m'.filter fun r =>
      r.organisational_unit == u)).length
  · rw [if_pos h4, if_pos h4]
    simp only [Option.map_some']
    rw [hsum, htake]
  · rw [if_neg h4, if_neg h4]

theorem calculate_team_results_scrub (l l' : List Runner)
    (h : l.map scrub = l'.map scrub) (g : String) :
    (calculate_team_results l g).map (fun x => (x.1, x.2.1, x.2.2.map scrub))
      = (calculate_team_results l' g).map (fun x => (x.1, x.2.1, x.2.2.map scrub)) := by
  have hgrp : ((isort elapsedLe (l.filter fun r => r.elapsed.isSome)).filter
        fun r => normalize_gender r.gender == g).map scrub
      = ((isort elapsedLe (l'.filter fun r => r.elapsed.isSome)).filter
        fun r => normalize_gender r.gender == g).map scrub :=
    map_scrub_filter (fun r => normalize_gender r.gender == g) (fun r => rfl) _ _
      (map_scrub_isort elapsedLe (fun a b => rfl) _ _
        (map_scrub_filter (fun r => r.elapsed.isSome) (fun r => rfl) l l' h))
  have hunits : ((isort elapsedLe (l.filter fun r => r.elapsed.isSome)).filter
        fun r => normalize_gender r.gender == g).map (·.organisational_unit)
      = ((isort elapsedLe (l'.filter fun r => r.elapsed.isSome)).filter
        fun r => normalize_gender r.gender == g).map (·.organisational_unit) :=
    map_eq_of_scrub_eq (fun r => r.organisational_unit) (fun r => rfl) _ _ hgrp
  have hrow : (fun u => (teamRow ((isort elapsedLe
          (l.filter fun r => r.elapsed.isSome)).filter
          fun r => normalize_gender r.gender == g) u).map
          (fun x => (x.1, x.2.1, x.2.2.map scrub)))
      = (fun u => (teamRow ((isort elapsedLe
          (l'.filter fun r => r.elapsed.isSome)).filter
          fun r => normalize_gender r.gender == g) u).map
          (fun x => (x.1, x.2.1, x.2.2.map scrub))) :=
    funext (teamRow_scrub _ _ hgrp)
  have hsort : ∀ raw : List (String × Int × List Runner),
      (isort (fun a b => decide (a.2.1 ≤ b.2.1)) raw).map
        (fun x => (x.1, x.2.1, x.2.2.map scrub))
      = isort (fun a b : String × Int × List Runner => decide (a.2.1 ≤ b.2.1))
        (raw.map fun x => (x.1, x.2.1, x.2.2.map scrub)) :=
    fun raw => map_isort (fun a b => decide (a.2.1 ≤ b.2.1))
      (fun a b : String × Int × List Runner => decide (a.2.1 ≤ b.2.1))
      (fun x => (x.1, x.2.1, x.2.2.map scrub)) (fun a b => rfl) raw
  simp only [calculate_team_results]
  rw [hsort, hsort]
  congr 1
  rw [List.map_filterMap, List.map_filterMap, hunits, hrow]

/-- C9: the display preference is ranking-irrelevant.  For any two states
identical except for `list_results` values (`Related`), `record_finish`
returns the same outcome and keeps the states related (same elapsed, position
and gender_position assignments), and every ranking query — top-N by gender,
latest finishers, both team-standings computations, most-finishers unit,
finisher count, fastest and "best effort" runner — selects and orders the same
participants (equal after erasing `list_results`); only the rendered name
(`get_display_name`) reads the preference. -/
theorem list_results_does_not_affect_ranking (s t : RaceState) (h : Related s t)
    (now : Int) (ident g : String) (n : Nat) :
    (record_finish s now ident).1 = (record_finish t now ident).1 ∧
    Related (record_finish s now ident).2 (record_finish t now ident).2 ∧
    (get_top_individual_results s.runners g n).map scrub
      = (get_top_individual_results t.runners g n).map scrub ∧
    (get_latest_finishers s.runners n).map scrub
      = (get_latest_finishers t.runners n).map scrub ∧
    (get_top_teams s.runners g n).map (fun x => (x.1, x.2.1, x.2.2.map scrub))
      = (get_top_teams t.runners g n).map (fun x => (x.1, x.2.1, x.2.2.map scrub)) ∧
    (calculate_team_results s.runners g).map (fun x => (x.1, x.2.1, x.2.2.map scrub))
      = (calculate_team_results t.runners g).map (fun x => (x.1, x.2.1, x.2.2.map scrub)) ∧
    top_org s.runners = top_org t.runners ∧
    total_finishers s.runners = total_finishers t.runners ∧
    (fastest_runner s.runners).map scrub = (fastest_runner t.runners).map scrub ∧
    (best_effort_runner s.runners).map scrub = (best_effort_runner t.runners).map scrub := by
  have hr : s.runners.map scrub = t.runners.map scrub := h.1
  exact ⟨(record_finish_scrub s t h now ident).1,
    (record_finish_scrub s t h now ident).2,
    get_top_individual_results_scrub _ _ hr g n,
    get_latest_finishers_scrub _ _ hr n,
    get_top_teams_scrub _ _ hr g n,
    calculate_team_results_scrub _ _ hr g,
    top_org_scrub _ _ hr,
    total_finishers_scrub _ _ hr,
    fastest_runner_scrub _ _ hr,
    best_effort_runner_scrub _ _ hr⟩

def c9r : Runner := mkRunner 1 "1" "s1" (some "male") "U" (some "yes") (some 10) (some 1) (some 1)
def c9rAnon : Runner := mkRunner 1 "1" "s1" (some "male") "U" (some "not") (some 10) (some 1) (some 1)

def c9s : RaceState := ⟨[c9r], some 100, 2, ⟨2, 1, 1⟩⟩
def c9t : RaceState := ⟨[c9rAnon], some 100, 2, ⟨2, 1, 1⟩⟩

/-- Witness for C9: two concrete states differing only in one participant's
`list_results` value give the same `record_finish` outcome and the same
most-finishers statistic. -/
theorem list_results_does_not_affect_ranking_witness :
    Related c9s c9t ∧
    (record_finish c9s 150 "1").1 = (record_finish c9t 150 "1").1 ∧
    top_org c9s.runners = top_org c9t.runners := by
  refine ⟨⟨by decide, rfl, rfl, rfl⟩, ?_, ?_⟩
  · exact (list_results_does_not_affect_ranking c9s c9t ⟨by decide, rfl, rfl, rfl⟩
      150 "1" "male" 3).1
  · exact (list_results_does_not_affect_ranking c9s c9t ⟨by decide, rfl, rfl, rfl⟩
      150 "1" "male" 3).2.2.2.2.2.2.1

/-! ## C1: positions are exactly 1..k with no duplicates or gaps -/

theorem setFinish_id (rid : Nat) (e : Int) (p gp : Nat) (q : Runner) :
    (setFinish rid e p gp q).id = q.id := by
  unfold setFinish
  split <;> rfl

theorem setFinish_reg (rid : Nat) (e : Int) (p gp : Nat) (q : Runner) :
    (setFinish rid e p gp q).registration_number = q.registration_number := by
  unfold setFinish
  split <;> rfl

theorem setFinish_staff (rid : Nat) (e : Int) (p gp : Nat) (q : Runner) :
    (setFinish rid e p gp q).staff_student_number = q.staff_student_number := by
  unfold setFinish
  split <;> rfl

theorem setFinish_gender (rid : Nat) (e : Int) (p gp : Nat) (q : Runner) :
    (setFinish rid e p gp q).gender = q.gender := by
  unfold setFinish
  split <;> rfl

theorem setFinish_of_ne (rid : Nat) (e : Int) (p gp : Nat) (q : Runner)
    (h : q.id ≠ rid) : setFinish rid e p gp q = q := by
  unfold setFinish
  rw [if_neg h]

theorem setFinish_self (rid : Nat) (e : Int) (p gp : Nat) (q : Runner)
    (h : q.id = rid) :
    setFinish rid e p gp q
      = { q with elapsed := some e, position := some p, gender_pos := some gp } := by
  unfold setFinish
  rw [if_pos h]

theorem find?_comp_map (f : α → α) (p : α → Bool) (hp : ∀ a, p (f a) = p a)
    (l : List α) : (l.map f).find? p = (l.find? p).map f := by
  induction l with
  | nil => rfl
  | cons a as ih =>
    by_cases hpa : p a = true
    · have h2 : p (f a) = true := by rw [hp a]; exact hpa
      rw [List.map_cons, List.find?_cons_of_pos _ h2, List.find?_cons_of_pos _ hpa]
      rfl
    · have h2 : ¬ p (f a) = true := by rw [hp a]; exact hpa
      rw [List.map_cons, List.find?_cons_of_neg _ h2, List.find?_cons_of_neg _ hpa, ih]

theorem find_runner_mem (l : List Runner) (i : String) (r : Runner)
    (h : find_runner l i = some r) : r ∈ l := by
  simp only [find_runner] at h
  split at h
  next reg_num heq =>
    split at h
    next runner heq2 =>
      injection h with h
      subst h
      exact List.mem_of_find?_eq_some heq2
    next heq2 => exact List.mem_of_find?_eq_some h
  next heq => exact List.mem_of_find?_eq_some h

theorem find_runner_map_setFinish (l : List Runner) (i : String)
    (rid : Nat) (e : Int) (cp gp : Nat) :
    find_runner (l.map (setFinish rid e cp gp)) i
      = (find_runner l i).map (setFinish rid e cp gp) := by
  simp only [find_runner]
  cases hreg : regDigits (pyStrip i) with
  | none =>
    exact find?_comp_map (setFinish rid e cp gp)
      (fun r => r.staff_student_number == pyStrip i)
      (fun q => by simp only [setFinish_staff]) l
  | some d =>
    rw [find?_comp_map (setFinish rid e cp gp)
      (fun r => r.registration_number == pyStrip i)
      (fun q => by simp only [setFinish_reg]) l]
    cases he : l.find? (fun r => r.registration_number == pyStrip i) with
    | some a => rfl
    | none =>
      dsimp only
      exact find?_comp_map (setFinish rid e cp gp)
        (fun r => startsWithStr r.registration_number d)
        (fun q => by simp only [setFinish_reg]) l

theorem resolveId_map_setFinish (l : List Runner) (i : String)
    (rid : Nat) (e : Int) (cp gp : Nat) :
    resolveId (l.map (setFinish rid e cp gp)) i = resolveId l i := by
  unfold resolveId
  rw [find_runner_map_setFinish]
  cases h : find_runner l i with
  | none => rfl
  | some a => simp [setFinish_id]

theorem runner_eq_of_id_eq {l : List Runner} (hids : (l.map (·.id)).Nodup)
    {q r : Runner} (hq : q ∈ l) (hr : r ∈ l) (h : q.id = r.id) : q = r := by
  induction l with
  | nil => cases hq
  | cons a as ih =>
    have hna : a.id ∉ as.map (·.id) := by
      have := (List.nodup_cons.mp hids).1
      simpa using this
    rcases List.mem_cons.mp hq with hq1 | hq2 <;>
      rcases List.mem_cons.mp hr with hr1 | hr2
    · rw [hq1, hr1]
    · subst hq1
      exact absurd (h ▸ List.mem_map_of_mem (·.id) hr2) hna
    · subst hr1
      exact absurd (h ▸ List.mem_map_of_mem (·.id) hq2) hna
    · exact ih (List.nodup_cons.mp hids).2 hq2 hr2

theorem filterMap_congr_mem (f g : α → Option β) (l : List α)
    (h : ∀ a ∈ l, f a = g a) : l.filterMap f = l.filterMap g := by
  induction l with
  | nil => rfl
  | cons a as ih =>
    rw [List.filterMap_cons, List.filterMap_cons, h a (by simp),
      ih (fun a ha => h a (by simp [ha]))]

theorem filterMap_update_perm (f : Runner → Option Nat) (upd : Runner → Runner)
    (l : List Runner) (r : Runner) (v : Nat)
    (hids : (l.map (·.id)).Nodup) (hr : r ∈ l)
    (hnone : f r = none) (hv : f (upd r) = some v)
    (hother : ∀ q, q.id ≠ r.id → upd q = q) :
    List.Perm ((l.map upd).filterMap f) (v :: l.filterMap f) := by
  induction l with
  | nil => cases hr
  | cons a as ih =>
    have hna : a.id ∉ as.map (·.id) := by
      have := (List.nodup_cons.mp hids).1
      simpa using this
    have hndtl : (as.map (·.id)).Nodup := (List.nodup_cons.mp hids).2
    by_cases haid : a.id = r.id
    · rcases List.mem_cons.mp hr with hra | hrtl
      · subst hra
        have hupd : ∀ q ∈ as, upd q = q := by
          intro q hq
          apply hother
          intro hqid
          exact hna (hqid ▸ List.mem_map_of_mem (·.id) hq)
        have htl : as.map upd = as := by
          calc as.map upd = as.map id := List.map_congr_left hupd
            _ = as := List.map_id as
        rw [List.map_cons, htl, List.filterMap_cons, List.filterMap_cons, hv, hnone]
      · exact absurd (haid ▸ List.mem_map_of_mem (·.id) hrtl) hna
    · have hrtl : r ∈ as := by
        rcases List.mem_cons.mp hr with hra | h2
        · exact absurd (by rw [hra]) haid
        · exact h2
      rw [List.map_cons, hother a haid, List.filterMap_cons, List.filterMap_cons]
      cases hfa : f a with
      | none => exact ih hndtl hrtl
      | some w => exact ((ih hndtl hrtl).cons w).trans (List.Perm.swap v w _)

theorem filterMap_update_eq (f : Runner → Option Nat) (upd : Runner → Runner)
    (l : List Runner) (r : Runner)
    (hids : (l.map (·.id)).Nodup) (hr : r ∈ l)
    (hsame : f (upd r) = f r) (hother : ∀ q, q.id ≠ r.id → upd q = q) :
    (l.map upd).filterMap f = l.filterMap f := by
  rw [List.filterMap_map]
  apply filterMap_congr_mem
  intro q hq
  by_cases hqid : q.id = r.id
  · have hqr : q = r := runner_eq_of_id_eq hids hq hr hqid
    subst hqr
    exact hsame
  · show f (upd q) = f q
    rw [hother q hqid]

theorem lookup_incr_self (gp : GenderPositions) (g : String) (c : Nat)
    (h : gp.lookup g = some c) : (gp.incr g).lookup g = some (c + 1) := by
  unfold GenderPositions.lookup GenderPositions.incr at *
  by_cases h1 : g = "male" <;> by_cases h2 : g = "female" <;>
    by_cases h3 : g = "other" <;> simp_all

theorem lookup_incr_ne (gp : GenderPositions) (g0 g : String) (hne : g ≠ g0) :
    (gp.incr g0).lookup g = gp.lookup g := by
  unfold GenderPositions.lookup GenderPositions.incr
  by_cases h1 : g0 = "male" <;> by_cases h2 : g0 = "female" <;>
    by_cases h3 : g0 = "other" <;> by_cases k1 : g = "male" <;>
    by_cases k2 : g = "female" <;> by_cases k3 : g = "other" <;>
    simp_all

/-- The allocator/store invariant maintained by `record_finish`: row ids are
unique, the three finish fields are set together, and the position and
per-bucket gender-position multisets are exactly 1..(counter − 1). -/
structure StoreInv (s : RaceState) : Prop where
  ids : (s.runners.map (·.id)).Nodup
  coupledPos : ∀ r ∈ s.runners, r.position.isSome = r.elapsed.isSome
  coupledG : ∀ r ∈ s.runners, r.gender_pos.isSome = r.elapsed.isSome
  cpos : 1 ≤ s.current_position
  permPos : List.Perm (positionsOf s.runners)
    (List.range' 1 (s.current_position - 1))
  gcount : ∀ g c, s.gender_positions.lookup g = some c → 1 ≤ c
  permG : ∀ g : String, List.Perm (genderPosOf s.runners g)
    (List.range' 1 ((s.gender_positions.lookup g).getD 1 - 1))

theorem record_finish_inv (s : RaceState) (now : Int) (ident : String)
    (hinv : StoreInv s)
    (hsafe : ∀ r, find_runner s.runners ident = some r → r.elapsed ≠ some 0) :
    StoreInv (record_finish s now ident).2 ∧
    ((record_finish s now ident).1 = FinishOutcome.ok →
      (record_finish s now ident).2.current_position = s.current_position + 1) ∧
    ((record_finish s now ident).1 ≠ FinishOutcome.ok →
      (record_finish s now ident).2 = s) ∧
    ((record_finish s now ident).1 = FinishOutcome.ok →
      ∃ r gp, find_runner s.runners ident = some r ∧ r.elapsed = none ∧
        s.gender_positions.lookup (normalize_gender r.gender) = some gp ∧
        (record_finish s now ident).2.runners
          = s.runners.map (setFinish r.id (now - s.start_time.getD 0)
              s.current_position gp)) := by
  simp only [record_finish]
  cases h0 : truthyInt s.start_time with
  | false =>
    exact ⟨hinv, fun h => absurd h (by simp), fun _ => rfl, fun h => absurd h (by simp)⟩
  | true =>
    cases h1 : find_runner s.runners ident with
    | none =>
      exact ⟨hinv, fun h => absurd h (by simp), fun _ => rfl, fun h => absurd h (by simp)⟩
    | some r =>
      dsimp only
      cases h2 : truthyInt r.elapsed with
      | true =>
        exact ⟨hinv, fun h => absurd h (by simp), fun _ => rfl, fun h => absurd h (by simp)⟩
      | false =>
        dsimp only
        have hrnone : r.elapsed = none := by
          cases he : r.elapsed with
          | none => rfl
          | some e =>
            rw [he] at h2
            have he0 : e = 0 := by simpa [truthyInt] using h2
            exact absurd (by rw [he, he0]) (hsafe r h1)
        have hrmem : r ∈ s.runners := find_runner_mem _ _ _ h1
        have hpos_none : r.position = none := by
          have hc := hinv.coupledPos r hrmem
          rw [hrnone] at hc
          cases hp : r.position with
          | none => rfl
          | some p => rw [hp] at hc; simp at hc
        have hgpos_none : r.gender_pos = none := by
          have hc := hinv.coupledG r hrmem
          rw [hrnone] at hc
          cases hp : r.gender_pos with
          | none => rfl
          | some p => rw [hp] at hc; simp at hc
        cases h3 : s.gender_positions.lookup (normalize_gender r.gender) with
        | none =>
          exact ⟨hinv, fun h => absurd h (by simp), fun _ => rfl,
            fun h => absurd h (by simp)⟩
        | some c =>
          have hc1 : 1 ≤ c := hinv.gcount _ c h3
          refine ⟨?_, fun _ => rfl, fun hne => absurd rfl hne,
            fun _ => ⟨r, c, rfl, hrnone, h3, rfl⟩⟩
          constructor
          case ids =>
            have : (s.runners.map (setFinish r.id (now - s.start_time.getD 0)
                s.current_position c)).map (·.id) = s.runners.map (·.id) := by
              rw [List.map_map]
              apply List.map_congr_left
              intro q _
              exact setFinish_id _ _ _ _ q
            rw [this]
            exact hinv.ids
          case coupledPos =>
            intro q' hq'
            rcases List.mem_map.mp hq' with ⟨q, hq, rfl⟩
            by_cases hqid : q.id = r.id
            · rw [setFinish_self _ _ _ _ _ hqid]
              rfl
            · rw [setFinish_of_ne _ _ _ _ _ hqid]
              exact hinv.coupledPos q hq
          case coupledG =>
            intro q' hq'
            rcases List.mem_map.mp hq' with ⟨q, hq, rfl⟩
            by_cases hqid : q.id = r.id
            · rw [setFinish_self _ _ _ _ _ hqid]
              rfl
            · rw [setFinish_of_ne _ _ _ _ _ hqid]
              exact hinv.coupledG q hq
          case cpos => exact Nat.le_succ_of_le hinv.cpos
          case permPos =>
            have hstep : List.Perm
                (positionsOf (s.runners.map (setFinish r.id
                  (now - s.start_time.getD 0) s.current_position c)))
                (s.current_position :: positionsOf s.runners) := by
              apply filterMap_update_perm (fun q => q.position) _ _ r
                s.current_position hinv.ids hrmem hpos_none
              · rw [setFinish_self _ _ _ _ _ rfl]
              · intro q hq
                exact setFinish_of_ne _ _ _ _ _ hq
            have hcp := hinv.cpos
            have hconcat : List.range' 1 (s.current_position + 1 - 1)
                = List.range' 1 (s.current_position - 1) ++ [s.current_position] := by
              have h4 : s.current_position + 1 - 1 = (s.current_position - 1) + 1 := by omega
              have h5 : 1 + 1 * (s.current_position - 1) = s.current_position := by omega
              rw [h4, List.range'_concat, h5]
            rw [hconcat]
            refine hstep.trans ?_
            refine ((hinv.permPos.cons s.current_position).trans ?_)
            exact (List.perm_append_singleton _ _).symm
          case gcount =>
            intro g c' hlk
            by_cases hgg : g = normalize_gender r.gender
            · subst hgg
              rw [lookup_incr_self _ _ c h3] at hlk
              injection hlk with hlk
              omega
            · rw [lookup_incr_ne _ _ _ hgg] at hlk
              exact hinv.gcount g c' hlk
          case permG =>
            intro g
            by_cases hgg : g = normalize_gender r.gender
            · subst hgg
              have hstep : List.Perm
                  (genderPosOf (s.runners.map (setFinish r.id
                    (now - s.start_time.getD 0) s.current_position c))
                    (normalize_gender r.gender))
                  (c :: genderPosOf s.runners (normalize_gender r.gender)) := by
                apply filterMap_update_perm
                  (fun q => if normalize_gender q.gender = normalize_gender r.gender
                    then q.gender_pos else none) _ _ r c hinv.ids hrmem
                · rw [if_pos rfl, hgpos_none]
                · rw [setFinish_self _ _ _ _ _ rfl]
                  simp
                · intro q hq
                  exact setFinish_of_ne _ _ _ _ _ hq
              rw [lookup_incr_self _ _ c h3]
              have hG := hinv.permG (normalize_gender r.gender)
              rw [h3] at hG
              have hconcat : List.range' 1 ((some (c + 1)).getD 1 - 1)
                  = List.range' 1 ((some c).getD 1 - 1) ++ [c] := by
                simp only [Option.getD_some]
                have h4 : c + 1 - 1 = (c - 1) + 1 := by omega
                have h5 : 1 + 1 * (c - 1) = c := by omega
                rw [h4, List.range'_concat, h5]
              rw [hconcat]
              refine hstep.trans ?_
              refine ((hG.cons c).trans ?_)
              exact (List.perm_append_singleton _ _).symm
            · have hstep : genderPosOf (s.runners.map (setFinish r.id
                  (now - s.start_time.getD 0) s.current_position c)) g
                  = genderPosOf s.runners g := by
                apply filterMap_update_eq
                  (fun q => if normalize_gender q.gender = g then q.gender_pos else none)
                  _ _ r hinv.ids hrmem
                · rw [setFinish_self _ _ _ _ _ rfl]
                  have hne : ¬ normalize_gender r.gender = g := fun hh => hgg hh.symm
                  simp [hne]
                · intro q hq
                  exact setFinish_of_ne _ _ _ _ _ hq
              rw [hstep, lookup_incr_ne _ _ _ hgg]
              exact hinv.permG g

theorem runCalls_inv (calls : List (Int × String)) (s : RaceState)
    (hinv : StoreInv s)
    (hnodup : (calls.filterMap fun c => resolveId s.runners c.2).Nodup)
    (hfresh : ∀ c ∈ calls, ∀ r, find_runner s.runners c.2 = some r →
      r.elapsed = none) :
    StoreInv (runCalls s calls).1 ∧
    (runCalls s calls).1.current_position = s.current_position + (runCalls s calls).2 := by
  induction calls generalizing s with
  | nil => exact ⟨hinv, by simp [runCalls]⟩
  | cons c rest ih =>
    have hsafe : ∀ r, find_runner s.runners c.2 = some r → r.elapsed ≠ some 0 := by
      intro r hr
      rw [hfresh c (List.mem_cons_self c rest) r hr]
      simp
    obtain ⟨hinv2, hcpok, hunch, hshape⟩ := record_finish_inv s c.1 c.2 hinv hsafe
    by_cases hok : (record_finish s c.1 c.2).1 = FinishOutcome.ok
    · obtain ⟨r, gp, hfr, hrel, hlk, hruns⟩ := hshape hok
      have hres : ∀ i, resolveId (record_finish s c.1 c.2).2.runners i
          = resolveId s.runners i := by
        intro i
        rw [hruns, resolveId_map_setFinish]
      have hhead : resolveId s.runners c.2 = some r.id := by
        unfold resolveId
        rw [hfr]
        rfl
      have hnodup0 : (rest.filterMap fun c2 => resolveId s.runners c2.2).Nodup ∧
          r.id ∉ rest.filterMap fun c2 => resolveId s.runners c2.2 := by
        have hn := hnodup
        simp only [List.filterMap_cons, hhead] at hn
        exact ⟨(List.nodup_cons.mp hn).2, (List.nodup_cons.mp hn).1⟩
      have hnodup2 : (rest.filterMap fun c2 =>
          resolveId (record_finish s c.1 c.2).2.runners c2.2).Nodup := by
        have he : (rest.filterMap fun c2 =>
            resolveId (record_finish s c.1 c.2).2.runners c2.2)
            = rest.filterMap fun c2 => resolveId s.runners c2.2 :=
          filterMap_congr_mem _ _ _ (fun c2 _ => by rw [hres])
        rw [he]
        exact hnodup0.1
      have hfresh2 : ∀ c2 ∈ rest, ∀ q,
          find_runner (record_finish s c.1 c.2).2.runners c2.2 = some q →
          q.elapsed = none := by
        intro c2 hc2 q hq
        rw [hruns, find_runner_map_setFinish] at hq
        cases hf0 : find_runner s.runners c2.2 with
        | none => rw [hf0] at hq; simp at hq
        | some q0 =>
          rw [hf0] at hq
          simp only [Option.map_some'] at hq
          have hq0id : q0.id ≠ r.id := by
            intro heq
            apply hnodup0.2
            have hres2 : resolveId s.runners c2.2 = some q0.id := by
              unfold resolveId
              rw [hf0]
              rfl
            exact List.mem_filterMap.mpr ⟨c2, hc2, by rw [hres2, heq]⟩
          injection hq with hq
          rw [← hq, setFinish_of_ne _ _ _ _ _ hq0id]
          exact hfresh c2 (List.mem_cons_of_mem _ hc2) q0 hf0
      obtain ⟨hI, hC⟩ := ih (record_finish s c.1 c.2).2 hinv2 hnodup2 hfresh2
      constructor
      · simpa [runCalls] using hI
      · simp only [runCalls]
        rw [hC, hcpok hok]
        simp only [hok, if_pos]
        omega
    · have hs2 : (record_finish s c.1 c.2).2 = s := hunch hok
      have hnodup2 : (rest.filterMap fun c2 => resolveId s.runners c2.2).Nodup := by
        have hn := hnodup
        simp only [List.filterMap_cons] at hn
        cases hrc : resolveId s.runners c.2 with
        | none => rw [hrc] at hn; exact hn
        | some i => rw [hrc] at hn; exact (List.nodup_cons.mp hn).2
      have hfresh2 : ∀ c2 ∈ rest, ∀ q, find_runner s.runners c2.2 = some q →
          q.elapsed = none :=
        fun c2 hc2 => hfresh c2 (List.mem_cons_of_mem _ hc2)
      obtain ⟨hI, hC⟩ := ih s hinv hnodup2 hfresh2
      constructor
      · simp only [runCalls, hs2]
        exact hI
      · simp only [runCalls, hs2]
        rw [hC]
        simp [hok]

theorem initState_runners (runners : List Runner) (start : Option Int) :
    (initState runners start).runners = runners := by
  unfold initState
  split <;> rfl

theorem initState_no_finishers (runners : List Runner) (start : Option Int)
    (hids : (runners.map (·.id)).Nodup)
    (hnofin : ∀ r ∈ runners,
      r.elapsed = none ∧ r.position = none ∧ r.gender_pos = none) :
    StoreInv (initState runners start) ∧
    (initState runners start).current_position = 1 := by
  have hpos : runners.filterMap (fun r => r.position) = [] := by
    apply List.filterMap_eq_nil.mpr
    intro r hr
    exact (hnofin r hr).2.1
  have hgpos : ∀ g, genderPosOf runners g = [] := by
    intro g
    apply List.filterMap_eq_nil.mpr
    intro r hr
    rw [(hnofin r hr).2.2]
    split <;> rfl
  have hseedO : seedOverall runners = 1 := by
    unfold seedOverall
    rw [hpos]
    rfl
  have hseedG : ∀ g, seedGenderRaw runners g = 1 := by
    intro g
    unfold seedGenderRaw
    have he : (runners.filterMap fun r =>
        if r.gender = some g then r.gender_pos else none) = [] := by
      apply List.filterMap_eq_nil.mpr
      intro r hr
      rw [(hnofin r hr).2.2]
      split <;> rfl
    rw [he]
    rfl
  have hseedOther : seedOther runners = 1 := by
    unfold seedOther
    have he : (runners.filterMap fun r =>
        if r.gender = none || r.gender = some "prefer-not-to-say"
        then r.gender_pos else none) = [] := by
      apply List.filterMap_eq_nil.mpr
      intro r hr
      rw [(hnofin r hr).2.2]
      split <;> rfl
    rw [he]
    rfl
  have hgp : (initState runners start).gender_positions = ⟨1, 1, 1⟩ := by
    unfold initState
    split
    · rw [hseedG "male", hseedG "female", hseedOther]
    · rfl
  have hcp : (initState runners start).current_position = 1 := by
    unfold initState
    split
    · exact hseedO
    · rfl
  have hlk1 : ∀ g : String,
      ((GenderPositions.mk 1 1 1).lookup g).getD 1 = 1 := by
    intro g
    unfold GenderPositions.lookup
    split_ifs <;> rfl
  refine ⟨⟨?_, ?_, ?_, ?_, ?_, ?_, ?_⟩, hcp⟩
  · rw [initState_runners]
    exact hids
  · intro r hr
    rw [initState_runners] at hr
    rw [(hnofin r hr).1, (hnofin r hr).2.1]
    rfl
  · intro r hr
    rw [initState_runners] at hr
    rw [(hnofin r hr).1, (hnofin r hr).2.2]
    rfl
  · rw [hcp]
  · rw [initState_runners, hcp]
    show List.Perm (runners.filterMap fun r => r.position) _
    rw [hpos]
    exact List.Perm.refl _
  · intro g cc h
    rw [hgp] at h
    have hcc : cc = 1 := by
      unfold GenderPositions.lookup at h
      split_ifs at h <;> simp_all
    omega
  · intro g
    rw [initState_runners, hgp, hgpos g, hlk1 g]
    exact List.Perm.refl _

theorem genderPosOf_length (runners : List Runner)
    (hC : ∀ r ∈ runners, r.gender_pos.isSome = r.elapsed.isSome) (g : String) :
    (genderPosOf runners g).length = bucketFinishers runners g := by
  induction runners with
  | nil => rfl
  | cons a as ih =>
    have ha := hC a (List.mem_cons_self a as)
    have ih2 := ih (fun r hr => hC r (List.mem_cons_of_mem a hr))
    simp only [genderPosOf, bucketFinishers] at ih2 ⊢
    by_cases hg : normalize_gender a.gender = g
    · cases he : a.elapsed with
      | none =>
        have hgp : a.gender_pos = none := by
          rw [he] at ha
          cases hx : a.gender_pos with
          | none => rfl
          | some p => rw [hx] at ha; simp at ha
        rw [List.filterMap_cons, List.filter_cons]
        simp [hg, hgp, he, ih2]
      | some e =>
        have hgp : ∃ p, a.gender_pos = some p := by
          rw [he] at ha
          cases hx : a.gender_pos with
          | none => rw [hx] at ha; simp at ha
          | some p => exact ⟨p, rfl⟩
        obtain ⟨p, hp⟩ := hgp
        rw [List.filterMap_cons, List.filter_cons]
        simp [hg, hp, he, ih2]
    · rw [List.filterMap_cons, List.filter_cons]
      simp [hg, ih2]

/-- C1: starting from a store with no finishers, for any console session whose
identifiers resolve to pairwise-distinct participants, the overall positions
assigned by the successful `record_finish` calls are exactly {1..k} (k = number
of successes) with no duplicates or gaps, and within each normalized gender
bucket the gender positions are exactly {1..m} (m = number of finishers of
that bucket). -/
theorem record_finish_positions_exact
    (runners : List Runner) (start : Option Int) (calls : List (Int × String))
    (hids : (runners.map (·.id)).Nodup)
    (hnofin : ∀ r ∈ runners,
      r.elapsed = none ∧ r.position = none ∧ r.gender_pos = none)
    (hdist : (calls.filterMap fun c => resolveId runners c.2).Nodup) :
    List.Perm (positionsOf (runCalls (initState runners start) calls).1.runners)
      (List.range' 1 (runCalls (initState runners start) calls).2) ∧
    ∀ g : String,
      List.Perm (genderPosOf (runCalls (initState runners start) calls).1.runners g)
        (List.range' 1
          (bucketFinishers (runCalls (initState runners start) calls).1.runners g)) := by
  obtain ⟨hinv0, hcp0⟩ := initState_no_finishers runners start hids hnofin
  have hnodup0 : (calls.filterMap fun c =>
      resolveId (initState runners start).runners c.2).Nodup := by
    rw [initState_runners]
    exact hdist
  have hfresh0 : ∀ c ∈ calls, ∀ r,
      find_runner (initState runners start).runners c.2 = some r →
      r.elapsed = none := by
    intro c hc r hr
    rw [initState_runners] at hr
    exact (hnofin r (find_runner_mem _ _ _ hr)).1
  obtain ⟨hI, hC⟩ := runCalls_inv calls (initState runners start) hinv0 hnodup0 hfresh0
  constructor
  · have hp := hI.permPos
    have h2 : (runCalls (initState runners start) calls).1.current_position - 1
        = (runCalls (initState runners start) calls).2 := by
      rw [hC, hcp0]
      omega
    rw [h2] at hp
    exact hp
  · intro g
    have hperm := hI.permG g
    have hlen1 := hperm.length_eq
    rw [List.length_range'] at hlen1
    have hlen2 := genderPosOf_length _ hI.coupledG g
    have h3 : (((runCalls (initState runners start) calls).1.gender_positions.lookup
          g).getD 1) - 1
        = bucketFinishers (runCalls (initState runners start) calls).1.runners g := by
      omega
    rw [h3] at hperm
    exact hperm

def c1r1 : Runner := mkRunner 1 "1" "w1" (some "male") "U" none none none none
def c1r2 : Runner := mkRunner 2 "2" "w2" (some "female") "U" none none none none

def c1calls : List (Int × String) := [(130, "1"), (145, "2")]

/-- Witness for C1 at a concrete store and session. -/
theorem record_finish_positions_exact_witness :
    ((c1calls.filterMap fun c => resolveId [c1r1, c1r2] c.2).Nodup) ∧
    List.Perm (positionsOf (runCalls (initState [c1r1, c1r2] (some 100)) c1calls).1.runners)
      (List.range' 1 (runCalls (initState [c1r1, c1r2] (some 100)) c1calls).2) ∧
    List.Perm (genderPosOf (runCalls (initState [c1r1, c1r2] (some 100)) c1calls).1.runners
        "male")
      (List.range' 1
        (bucketFinishers (runCalls (initState [c1r1, c1r2] (some 100)) c1calls).1.runners
          "male")) := by
  refine ⟨by decide, ?_, ?_⟩
  · exact (record_finish_positions_exact [c1r1, c1r2] (some 100) c1calls
      (by decide) (by decide) (by decide)).1
  · exact (record_finish_positions_exact [c1r1, c1r2] (some 100) c1calls
      (by decide) (by decide) (by decide)).2 "male"
